import Mathlib

/-!
# Verification of the ebcom research-assistant pipeline

Shallow embedding of the core of the `ebcom` repository: the
structure-preserving smart-truncation algorithms
(`backend/extractor.py` and
`src/features/research/infrastructure/extraction.py`), the pipeline
orchestrators (`backend/research_agent.py` and
`src/features/research/services/research_service.py`), the reasoning
chain's citation construction (`backend/reasoning_chain.py`) and the
output formatters (`backend/formatter.py` and
`src/features/research/infrastructure/formatting.py`).

Python strings are modelled as `List Char`; external collaborators
(search provider, HTTP fetch + trafilatura extraction, LLM calls) are
modelled as oracle functions supplied through environment structures,
capturing their behaviour during a single run.
-/

namespace Ebcom

/-- Python strings are modelled as lists of characters. -/
abbrev Str := List Char

/-- Convert a Lean string literal to the `Str` model. -/
def strOf (s : String) : Str := s.toList

/-- The characters removed by Python's `str.strip()` (ASCII whitespace). -/
def isPySpace (c : Char) : Bool :=
  c = ' ' || c = '\t' || c = '\n' || c = '\r' || c = '\x0b' || c = '\x0c'

/-- Python `s.strip()`: drop leading and trailing whitespace. -/
def pyStrip (s : Str) : Str :=
  ((s.dropWhile isPySpace).reverse.dropWhile isPySpace).reverse

/-- Python `s.split("\n\n")`: split on the leftmost, non-overlapping
occurrences of two consecutive newline characters. -/
def splitSeq2 : Str → List Str
  | [] => [[]]
  | '\n' :: '\n' :: rest => [] :: splitSeq2 rest
  | c :: rest =>
    match splitSeq2 rest with
    | [] => [[c]]
    | h :: t => (c :: h) :: t

/-- Python `sep.join(parts)`. -/
def joinSep (sep : Str) : List Str → Str
  | [] => []
  | [x] => x
  | x :: y :: rest => x ++ sep ++ joinSep sep (y :: rest)

/-- The paragraph separator `"\n\n"`. -/
def nl2 : Str := ['\n', '\n']

/-- The literal truncation marker `"[...]"` (`TRUNCATION_ELLIPSIS`). -/
def marker : Str := strOf "[...]"

/-- `[p.strip() for p in content.split('\n\n') if p.strip()]`
(both `ContentExtractor.smart_truncate` and `TrafilaturaExtractor.truncate`
build their paragraph list this way). -/
def pyParagraphs (content : Str) : List Str :=
  ((splitSeq2 content).map pyStrip).filter (fun p => !p.isEmpty)

/-- Python `text.rfind(' ', 0, stop)`: the greatest index `< stop` holding
a space, as an `Option` (Python returns `-1` when absent). -/
def rfindSpace (text : Str) (stop : Nat) : Option Nat :=
  let l := text.take stop
  match l.reverse.findIdx? (fun c => c = ' ') with
  | none => none
  | some j => some (l.length - 1 - j)

/-- `ContentExtractor._simple_truncate`: word-boundary truncation with an
`"..."` suffix.  The Python `max_chars - 3` is modelled with `Nat`
subtraction; every call site in the embedded code paths has
`max_chars > 3`, where the two agree. -/
def simple_truncate (text : Str) (maxChars : Nat) : Str :=
  if text.length ≤ maxChars then text
  else
    let cut :=
      match rfindSpace text (maxChars - 3) with
      | some i => i
      | none => maxChars - 3
    text.take cut ++ strOf "..."

/-- `truncate_at_word_boundary` from `src/shared/utils/text.py` with the
default suffix `"..."`; the algorithm coincides with
`ContentExtractor._simple_truncate`. -/
def truncate_at_word_boundary (text : Str) (maxChars : Nat) : Str :=
  if text.length ≤ maxChars then text
  else
    let cut :=
      match rfindSpace text (maxChars - 3) with
      | some i => i
      | none => maxChars - 3
    text.take cut ++ strOf "..."

/-- The greedy middle-paragraph loop shared by both truncation variants:
walk the middle paragraphs in order, including each paragraph whose
length plus `sepLen` still fits the (possibly negative) budget, and stop
at the first paragraph that does not fit.  `sepLen` is `4` in the
backend variant and `2` in the `src` variant; the budget is a Python
`int`, which can be negative, hence `Int`. -/
def greedyFit (sepLen budget : Int) : List Str → Int → List Str
  | [], _ => []
  | p :: rest, used =>
    if used + ((p.length : Int) + sepLen) ≤ budget then
      p :: greedyFit sepLen budget rest (used + ((p.length : Int) + sepLen))
    else []

/-- The body of `ContentExtractor.smart_truncate` after the empty/short
checks, on the already-computed paragraph list.  The Python
`result_parts` assembly (`if middle_parts: ... elif middle_paragraphs:`)
is equivalent to inserting the marker exactly when strictly fewer middle
paragraphs were included than exist. -/
def smart_truncate_core (paragraphs : List Str) (content : Str) (maxChars : Nat) : Str :=
  match paragraphs with
  | [] => simple_truncate content maxChars
  | [p] => simple_truncate p maxChars
  | first :: p2 :: ps =>
    let last := (p2 :: ps).getLastD []
    let introLen := first.length
    let conclLen := last.length
    let minRequired := introLen + conclLen + 4
    if maxChars < minRequired then
      if introLen + 7 + 50 ≤ maxChars then
        let remaining := maxChars - introLen - 4 - 7 - 4
        if 20 < remaining then
          first ++ nl2 ++ marker ++ nl2 ++ simple_truncate last remaining
        else
          simple_truncate first maxChars
      else
        simple_truncate first maxChars
    else
      let remainingBudget : Int :=
        (maxChars : Int) - (introLen : Int) - (conclLen : Int) - 4 - 7 - 4
      let middles := (p2 :: ps).dropLast
      let middleParts := greedyFit 4 remainingBudget middles 0
      let parts :=
        [first] ++ middleParts
          ++ (if middleParts.length < middles.length then [marker] else [])
          ++ [last]
      joinSep nl2 parts

/-- `ContentExtractor.smart_truncate` from `backend/extractor.py`. -/
def smart_truncate (content : Str) (maxChars : Nat) : Str :=
  if content.isEmpty then []
  else if content.length ≤ maxChars then content
  else smart_truncate_core (pyParagraphs content) content maxChars

/-- `TrafilaturaExtractor._truncate_preserving_structure` from
`src/features/research/infrastructure/extraction.py`.  `paragraphs[0]`
is `headI`, `paragraphs[-1]` is `getLastD`, and
`paragraphs[1:-1] if len(paragraphs) > 2 else []` is
`(drop 1).dropLast`; the caller guarantees at least two paragraphs.
`overhead = len(sep) * 2 + len(ellipsis) + len(sep) = 11`. -/
def truncate_preserving_structure (paragraphs : List Str) (maxChars : Nat) : Str :=
  let first := paragraphs.headI
  let last := paragraphs.getLastD []
  let minRequired := first.length + last.length + 2
  if maxChars < minRequired then
    truncate_at_word_boundary first maxChars
  else
    let middleBudget : Int :=
      (maxChars : Int) - (first.length : Int) - (last.length : Int) - 11
    let middles := (paragraphs.drop 1).dropLast
    let included := greedyFit 2 middleBudget middles 0
    let parts :=
      [first] ++ included
        ++ (if included.length < middles.length then [marker] else [])
        ++ [last]
    joinSep nl2 parts

/-- `TrafilaturaExtractor.truncate`: the `src`-tree smart truncation.
`if not content or len(content) <= max_chars: return content or ""` is
the single length test here, since the empty string has length `0`. -/
def traf_truncate (content : Str) (maxChars : Nat) : Str :=
  if content.length ≤ maxChars then content
  else
    let paragraphs := pyParagraphs content
    if paragraphs.length ≤ 1 then truncate_at_word_boundary content maxChars
    else truncate_preserving_structure paragraphs maxChars

/-! ## Data model (`backend/models.py`, `src/features/research/domain/models.py`) -/

/-- Decimal rendering of a natural number (used by the f-strings in
progress messages and citation lines); fuel-based so that it reduces in
the kernel. -/
def natToStrAux : Nat → Nat → Str
  | 0, _ => []
  | fuel + 1, n =>
    let d : Char :=
      match n % 10 with
      | 0 => '0' | 1 => '1' | 2 => '2' | 3 => '3' | 4 => '4'
      | 5 => '5' | 6 => '6' | 7 => '7' | 8 => '8' | _ => '9'
    if n < 10 then [d] else natToStrAux fuel (n / 10) ++ [d]

/-- Decimal rendering of a natural number. -/
def natToStr (n : Nat) : Str := natToStrAux (n + 1) n

/-- `SearchResult`: one hit from the search provider. -/
structure SearchResult where
  url : Str
  title : Str
  snippet : Str
deriving DecidableEq

/-- `ExtractedContent`: the extractor's output for one page. -/
structure ExtractedContent where
  url : Str
  title : Str
  content : Str
deriving DecidableEq

/-- `SourceSummary`: a source that survived extraction and summarization. -/
structure SourceSummary where
  source_number : Nat
  title : Str
  url : Str
  summary : Str
deriving DecidableEq

/-- `Citation`: one bibliography entry of the final report. -/
structure Citation where
  number : Nat
  title : Str
  url : Str
deriving DecidableEq

/-- `FinalReport`: the synthesized report. -/
structure FinalReport where
  summary : Str
  key_points : List Str
  comparison : Str
  citations : List Citation
  language : Str
deriving DecidableEq

/-- The `step` field of a progress event (`ProgressStep` in
`domain/enums.py`; plain strings in the backend tree). -/
inductive StepKind where
  | searching | found | fetching | summarizing | analyzing | finalizing | complete
deriving DecidableEq

/-- `ProgressEvent`: step, message and the optional numeric fields. -/
structure ProgressEvent where
  step : StepKind
  message : Str
  current : Option Nat
  total : Option Nat
  count : Option Nat
deriving DecidableEq

/-- The `searching` event emitted before the search call. -/
def searchingEvent : ProgressEvent :=
  ⟨.searching, strOf "Searching...", none, none, none⟩

/-- The `found` event: `f"Found {len(results)} sources"` with `count`. -/
def foundEvent (n : Nat) : ProgressEvent :=
  ⟨.found, strOf "Found " ++ natToStr n ++ strOf " sources", none, none, some n⟩

/-- The `fetching` event: `f"Fetching {i}/{total}..."` with `current`/`total`. -/
def fetchingEvent (i total : Nat) : ProgressEvent :=
  ⟨.fetching, strOf "Fetching " ++ natToStr i ++ strOf "/" ++ natToStr total ++ strOf "...",
    some i, some total, none⟩

/-- The `summarizing` event: `f"Summarizing {i}/{total}..."`. -/
def summarizingEvent (i total : Nat) : ProgressEvent :=
  ⟨.summarizing, strOf "Summarizing " ++ natToStr i ++ strOf "/" ++ natToStr total ++ strOf "...",
    some i, some total, none⟩

/-- The `analyzing` event. -/
def analyzingEvent : ProgressEvent :=
  ⟨.analyzing, strOf "Analyzing...", none, none, none⟩

/-- The `finalizing` event (backend tree only). -/
def finalizingEvent : ProgressEvent :=
  ⟨.finalizing, strOf "Finalizing...", none, none, none⟩

/-- The `complete` event. -/
def completeEvent : ProgressEvent :=
  ⟨.complete, strOf "Complete", none, none, none⟩

/-! ## Progress callback (`_send_progress` / `_emit`)

A progress callback may raise; the orchestrators wrap every invocation
in `try/except` and discard the failure.  A callback for one run is
modelled as a function to `Bool` (`false` = the callback raised);
`none` models no callback installed.  The pipelines record the
delivery outcomes but never read them. -/

/-- A progress callback for a single run; `none` = not installed,
`some f` with `f ev = false` models `f` raising on `ev`. -/
abbrev Callback := Option (ProgressEvent → Bool)

/-- `ResearchAgent._send_progress` / `ResearchService._emit`: invoke the
callback, swallowing any exception; returns the delivery outcome, which
the callers never inspect. -/
def send_progress (cb : Callback) (ev : ProgressEvent) : Bool :=
  match cb with
  | none => true
  | some f => f ev

/-! ## Backend orchestrator (`backend/research_agent.py`) -/

/-- `ResearchError` from `backend/research_agent.py`: a single exception
class carrying a user-safe message. -/
structure ResearchError where
  message : Str
deriving DecidableEq

/-- The external collaborators of `ResearchAgent`, as the oracle of one
run: language detector, search provider, extractor (`None` on any
failure), summarizer (`None` on any failure) and output formatter. -/
structure AgentEnv where
  detect : Str → Str
  search : Str → Nat → List SearchResult
  extract : Str → Option ExtractedContent
  summarize : Str → Str → Str → Option Str
  format : FinalReport → Str → Str

/-- The loop body of `ResearchAgent._process_sources`: `i` is the 1-based
enumeration index, `srcNum` the count of successes so far.  Returns the
emitted events, the callback delivery outcomes, and the summaries.
Extraction failure skips the source before the `summarizing` event;
summarization failure skips it after.  `smart_truncate` is applied with
`DEFAULT_MAX_CHARS = 8000`. -/
def agentProcessAux (env : AgentEnv) (cb : Callback) (language : Str) (total : Nat) :
    List SearchResult → Nat → Nat → List ProgressEvent × List Bool × List SourceSummary
  | [], _, _ => ([], [], [])
  | r :: rest, i, srcNum =>
    let fev := fetchingEvent i total
    let a1 := send_progress cb fev
    match env.extract r.url with
    | none =>
      let out := agentProcessAux env cb language total rest (i + 1) srcNum
      (fev :: out.1, a1 :: out.2.1, out.2.2)
    | some ext =>
      let truncated := smart_truncate ext.content 8000
      let sev := summarizingEvent i total
      let a2 := send_progress cb sev
      match env.summarize truncated ext.title language with
      | none =>
        let out := agentProcessAux env cb language total rest (i + 1) srcNum
        (fev :: sev :: out.1, a1 :: a2 :: out.2.1, out.2.2)
      | some s =>
        let out := agentProcessAux env cb language total rest (i + 1) (srcNum + 1)
        (fev :: sev :: out.1, a1 :: a2 :: out.2.1,
          ⟨srcNum + 1, ext.title, r.url, s⟩ :: out.2.2)

/-- `ResearchAgent._process_sources`. -/
def agent_process_sources (env : AgentEnv) (cb : Callback) (results : List SearchResult)
    (language : Str) : List ProgressEvent × List Bool × List SourceSummary :=
  agentProcessAux env cb language results.length results 1 0

/-! ## Reasoning chain (`backend/reasoning_chain.py`) -/

/-- `ReasoningChain._build_citations`: numbers and identity copied 1:1
from the summaries. -/
def build_citations (summaries : List SourceSummary) : List Citation :=
  summaries.map (fun s => ⟨s.source_number, s.title, s.url⟩)

/-- `ReasoningChain._format_summaries`:
`f"[{n}] {title}\nURL: {url}\nSummary: {summary}\n"` joined by `"\n"`. -/
def format_summaries (summaries : List SourceSummary) : Str :=
  joinSep (strOf "\n")
    (summaries.map (fun s =>
      strOf "[" ++ natToStr s.source_number ++ strOf "] " ++ s.title ++ strOf "\nURL: "
        ++ s.url ++ strOf "\nSummary: " ++ s.summary ++ strOf "\n"))

/-- `ReasoningChain._get_language_instruction`. -/
def language_instruction (language : Str) : Str :=
  if language = strOf "fa" then
    strOf "You MUST write your entire response in Persian (Farsi). Do not use English."
  else
    strOf "You MUST write your entire response in English. Do not use other languages."

/-- The three LLM-backed helpers of `ReasoningChain`
(`_generate_main_summary`, `_extract_key_points`, `_generate_comparison`)
as the oracle of one run, each of arguments
(formatted summaries, topic, language instruction) and returning `none`
on any LLM failure. -/
structure ChainEnv where
  mainSummary : Str → Str → Str → Option Str
  keyPoints : Str → Str → Str → Option (List Str)
  comparison : Str → Str → Str → Option Str

/-- `ReasoningChain.generate_report`: empty summaries give `None`;
citations are built by `_build_citations`; Python's
`if not main_summary or not key_points or not comparison` also rejects
empty strings and empty lists. -/
def generate_report (chain : ChainEnv) (summaries : List SourceSummary)
    (topic language : Str) : Option FinalReport :=
  if summaries.isEmpty then none
  else
    let citations := build_citations summaries
    let formatted := format_summaries summaries
    let instr := language_instruction language
    match chain.mainSummary formatted topic instr, chain.keyPoints formatted topic instr,
        chain.comparison formatted topic instr with
    | some ms, some kps, some cmp =>
      if ms.isEmpty || kps.isEmpty || cmp.isEmpty then none
      else some ⟨ms, kps, cmp, citations, language⟩
    | _, _, _ => none

/-- `ResearchAgent.research`: detect language, search (raising
`ResearchError` on an empty result list), process sources (raising when
none survives), generate the report via the reasoning chain (raising on
`None`), format, and return.  The first component is the list of events
passed to `_send_progress` in order, the second the callback delivery
outcomes, the third the outcome. -/
def agent_research (env : AgentEnv) (chain : ChainEnv) (cb : Callback)
    (topic : Str) (numSources : Nat) (outputFormat : Str) :
    List ProgressEvent × List Bool × Except ResearchError Str :=
  let language := env.detect topic
  let e1 := searchingEvent
  let a1 := send_progress cb e1
  let results := env.search topic numSources
  if results.isEmpty then
    ([e1], [a1], .error ⟨strOf "Unable to search. Please try again."⟩)
  else
    let e2 := foundEvent results.length
    let a2 := send_progress cb e2
    let out := agent_process_sources env cb results language
    let summaries := out.2.2
    if summaries.isEmpty then
      (e1 :: e2 :: out.1, a1 :: a2 :: out.2.1,
        .error ⟨strOf "Could not retrieve any sources. Please try a different topic."⟩)
    else
      let e3 := analyzingEvent
      let a3 := send_progress cb e3
      match generate_report chain summaries topic language with
      | none =>
        (e1 :: e2 :: out.1 ++ [e3], a1 :: a2 :: out.2.1 ++ [a3],
          .error ⟨strOf "AI service unavailable. Please try again later."⟩)
      | some report =>
        let e4 := finalizingEvent
        let a4 := send_progress cb e4
        let result := env.format report outputFormat
        let e5 := completeEvent
        let a5 := send_progress cb e5
        (e1 :: e2 :: out.1 ++ [e3, e4, e5], a1 :: a2 :: out.2.1 ++ [a3, a4, a5],
          .ok result)

/-! ## `src`-tree orchestrator
(`src/features/research/services/research_service.py`) -/

/-- The typed research errors
(`features/research/domain/exceptions.py`), plus pydantic's
`ValidationError`, which is not an `AppError` but can escape
`ResearchService.research` when a model constructor rejects its
arguments. -/
inductive ServiceError where
  | searchFailed
  | noSourcesFound
  | aiService
  | validationError
deriving DecidableEq

/-- `ResearchResult` from `src/features/research/domain/models.py`:
required fields `content`, `format` and `language`. -/
structure ResearchResult where
  content : Str
  format : Str
  language : Str
deriving DecidableEq

/-- Pydantic-style constructor for `ResearchResult`: each declared field
must be supplied (`none` = the keyword was absent); undeclared keyword
arguments (such as the `report=` the service passes) are ignored by
pydantic's default config and do not appear here.  Construction raises
`ValidationError` when a required field is missing. -/
def mkResearchResult (content : Option Str) (format : Option Str) (language : Option Str) :
    Except ServiceError ResearchResult :=
  match content, format, language with
  | some c, some f, some l => .ok ⟨c, f, l⟩
  | _, _, _ => .error .validationError

/-- The external collaborators of `ResearchService`
(`domain/interfaces.py`): search, extractor, summarizer and report
generator; the formatter is injected but never used by
`ResearchService.research`. -/
structure ServiceEnv where
  detect : Str → Str
  search : Str → Nat → List SearchResult
  extract : Str → Option ExtractedContent
  summarize : Str → Str → Str → Option Str
  generate : List SourceSummary → Str → Str → Option FinalReport

/-- The loop body of `ResearchService._process_sources`; identical
control flow to the backend loop, with `TrafilaturaExtractor.truncate`
and `settings.research.max_content_chars = 8000`. -/
def serviceProcessAux (env : ServiceEnv) (cb : Callback) (language : Str) (total : Nat) :
    List SearchResult → Nat → Nat → List ProgressEvent × List Bool × List SourceSummary
  | [], _, _ => ([], [], [])
  | r :: rest, i, srcNum =>
    let fev := fetchingEvent i total
    let a1 := send_progress cb fev
    match env.extract r.url with
    | none =>
      let out := serviceProcessAux env cb language total rest (i + 1) srcNum
      (fev :: out.1, a1 :: out.2.1, out.2.2)
    | some ext =>
      let truncated := traf_truncate ext.content 8000
      let sev := summarizingEvent i total
      let a2 := send_progress cb sev
      match env.summarize truncated ext.title language with
      | none =>
        let out := serviceProcessAux env cb language total rest (i + 1) srcNum
        (fev :: sev :: out.1, a1 :: a2 :: out.2.1, out.2.2)
      | some s =>
        let out := serviceProcessAux env cb language total rest (i + 1) (srcNum + 1)
        (fev :: sev :: out.1, a1 :: a2 :: out.2.1,
          ⟨srcNum + 1, ext.title, r.url, s⟩ :: out.2.2)

/-- `ResearchService._process_sources`. -/
def service_process_sources (env : ServiceEnv) (cb : Callback) (results : List SearchResult)
    (language : Str) : List ProgressEvent × List Bool × List SourceSummary :=
  serviceProcessAux env cb language results.length results 1 0

/-- `ResearchService.research`: detect, `_search_sources` (raising
`SearchFailedError` on an empty list before the `found` event),
`_process_sources` (raising `NoSourcesFoundError` when nothing
survives), `_generate_report` (raising `AIServiceError` on `None`),
emit `complete`, then `return ResearchResult(report=report,
language=language)` — which reaches `mkResearchResult` with the required
`content` and `format` fields absent (the `report` keyword is not a
declared field of the model). -/
def service_research (env : ServiceEnv) (cb : Callback) (topic : Str) (numSources : Nat) :
    List ProgressEvent × List Bool × Except ServiceError ResearchResult :=
  let language := env.detect topic
  let e1 := searchingEvent
  let a1 := send_progress cb e1
  let results := env.search topic numSources
  if results.isEmpty then
    ([e1], [a1], .error .searchFailed)
  else
    let e2 := foundEvent results.length
    let a2 := send_progress cb e2
    let out := service_process_sources env cb results language
    let summaries := out.2.2
    if summaries.isEmpty then
      (e1 :: e2 :: out.1, a1 :: a2 :: out.2.1, .error .noSourcesFound)
    else
      let e3 := analyzingEvent
      let a3 := send_progress cb e3
      match env.generate summaries topic language with
      | none =>
        (e1 :: e2 :: out.1 ++ [e3], a1 :: a2 :: out.2.1 ++ [a3], .error .aiService)
      | some _report =>
        let e4 := completeEvent
        let a4 := send_progress cb e4
        (e1 :: e2 :: out.1 ++ [e3, e4], a1 :: a2 :: out.2.1 ++ [a3, a4],
          mkResearchResult none none (some language))

/-! ## Output formatters (`backend/formatter.py`,
`src/features/research/infrastructure/formatting.py`) -/

/-- The citation line `f"[{number}] {title} - {url}"` (identical in both
formatters). -/
def citationLine (c : Citation) : Str :=
  strOf "[" ++ natToStr c.number ++ strOf "] " ++ c.title ++ strOf " - " ++ c.url

/-- `OutputFormatter._format_markdown` (backend tree): build the section
list and join with `"\n"`. -/
def format_markdown (report : FinalReport) : Str :=
  joinSep (strOf "\n")
    ([strOf "# Summary\n", report.summary, []]
      ++ [strOf "# Key Points\n"]
      ++ report.key_points.map (fun p => strOf "- " ++ p)
      ++ [[], strOf "# Comparison\n", report.comparison, []]
      ++ [strOf "# Citations\n"]
      ++ report.citations.map citationLine)

/-- The localized section titles of one language in `SECTION_TITLES`. -/
structure Titles where
  summary : Str
  key_points : Str
  comparison : Str
  citations : Str

/-- The English titles (`SECTION_TITLES["en"]`, also the fallback). -/
def englishTitles : Titles :=
  ⟨strOf "Summary", strOf "Key Points", strOf "Comparison", strOf "Citations"⟩

/-- `SECTION_TITLES` from `formatting.py`. -/
def sectionTitles : List (Str × Titles) :=
  [ (strOf "en", englishTitles),
    (strOf "fa", ⟨strOf "خلاصه", strOf "نکات کلیدی", strOf "مقایسه", strOf "منابع"⟩),
    (strOf "ar", ⟨strOf "ملخص", strOf "النقاط الرئيسية", strOf "المقارنة", strOf "المراجع"⟩),
    (strOf "ja", ⟨strOf "要約", strOf "重要ポイント", strOf "比較", strOf "引用"⟩),
    (strOf "zh-cn", ⟨strOf "摘要", strOf "要点", strOf "比较", strOf "引用"⟩),
    (strOf "de", ⟨strOf "Zusammenfassung", strOf "Kernpunkte", strOf "Vergleich", strOf "Quellen"⟩),
    (strOf "fr", ⟨strOf "Résumé", strOf "Points Clés", strOf "Comparaison", strOf "Citations"⟩),
    (strOf "es", ⟨strOf "Resumen", strOf "Puntos Clave", strOf "Comparación", strOf "Citas"⟩) ]

/-- `get_titles`: `SECTION_TITLES.get(language, SECTION_TITLES["en"])`. -/
def get_titles (language : Str) : Titles :=
  (sectionTitles.lookup language).getD englishTitles

/-- `MarkdownJsonFormatter._to_markdown` (`src` tree): four composite
sections with localized titles, joined by `"\n"`; bullet lines joined by
`"\n"`, citation lines joined by `"\n\n"`. -/
def mdjson_markdown (report : FinalReport) : Str :=
  let t := get_titles report.language
  joinSep (strOf "\n")
    [ strOf "# " ++ t.summary ++ strOf "\n\n" ++ report.summary ++ strOf "\n",
      strOf "# " ++ t.key_points ++ strOf "\n\n"
        ++ joinSep (strOf "\n") (report.key_points.map (fun p => strOf "- " ++ p))
        ++ strOf "\n",
      strOf "# " ++ t.comparison ++ strOf "\n\n" ++ report.comparison ++ strOf "\n",
      strOf "# " ++ t.citations ++ strOf "\n\n"
        ++ joinSep nl2 (report.citations.map citationLine) ]

/-! ## Specification-side predicates and concrete inputs -/

/-- `containsInOrder blocks out`: the `blocks` occur inside `out` as
disjoint substrings, in the given order (the spec's "contains, in
order, ..." reading). -/
def containsInOrder : List Str → Str → Prop
  | [], _ => True
  | x :: xs, out => ∃ pre suf, out = pre ++ x ++ suf ∧ containsInOrder xs suf

/-- The blocks the spec requires, in order, of the backend Markdown
formatter: the four section headers (as emitted, with their trailing
newline), one bullet per key point, one `[N] Title - URL` line per
citation. -/
def backendMdBlocks (report : FinalReport) : List Str :=
  [strOf "# Summary\n", strOf "# Key Points\n"]
    ++ report.key_points.map (fun p => strOf "- " ++ p)
    ++ [strOf "# Comparison\n", strOf "# Citations\n"]
    ++ report.citations.map citationLine

/-- The corresponding blocks for the `src`-tree formatter, whose section
headers are localized through `SECTION_TITLES`. -/
def srcMdBlocks (report : FinalReport) : List Str :=
  let t := get_titles report.language
  [strOf "# " ++ t.summary, strOf "# " ++ t.key_points]
    ++ report.key_points.map (fun p => strOf "- " ++ p)
    ++ [strOf "# " ++ t.comparison, strOf "# " ++ t.citations]
    ++ report.citations.map citationLine

/-- Length-bound violation input for the backend truncation:
`"a"*100 + "\n\n" + "b" + "\n\n" + "c"*96` (201 characters). -/
def lengthCexBackend : Str :=
  List.replicate 100 'a' ++ nl2 ++ ['b'] ++ nl2 ++ List.replicate 96 'c'

/-- Length-bound violation input for the `src`-tree truncation:
`"a"*100 + "\n\n" + "b" + "\n\n" + "c"*97` (202 characters). -/
def lengthCexSrc : Str :=
  List.replicate 100 'a' ++ nl2 ++ ['b'] ++ nl2 ++ List.replicate 97 'c'

/-- Narrow-budget branch input: `"a"*100 + "\n\n" + "b"*100`. -/
def narrowCex : Str := List.replicate 100 'a' ++ nl2 ++ List.replicate 100 'b'

/-- The spec's §8 example-scenario input:
`"A"*50 + "\n\n" + "B"*50 + "\n\n" + "C"*50`. -/
def exampleScenarioContent : Str :=
  List.replicate 50 'A' ++ nl2 ++ List.replicate 50 'B' ++ nl2 ++ List.replicate 50 'C'

/-- A Persian-language report, demonstrating localized headers. -/
def faReport : FinalReport :=
  ⟨strOf "s", [strOf "p"], strOf "c", [⟨1, strOf "t", strOf "u"⟩], strOf "fa"⟩

/-- A concrete four-paragraph content for exercising endpoint
preservation. -/
def fourParaContent : Str := strOf "aa\n\nbb\n\ncc\n\ndd"

/-- A concrete search hit used by the witness environments. -/
def wHit (k : Nat) : SearchResult :=
  ⟨strOf "https://example" ++ natToStr k ++ strOf ".com/", strOf "Hit", strOf "Snippet"⟩

/-- A witness `ServiceEnv` for a fully successful run: the search
returns two hits (fewer than requested), extraction and summarization
succeed on every hit, and report generation succeeds. -/
def wServiceEnv : ServiceEnv :=
  ⟨fun _ => strOf "en",
    fun _ _ => [wHit 0, wHit 1],
    fun url => some ⟨url, strOf "T", strOf "body text"⟩,
    fun _ _ _ => some (strOf "a summary"),
    fun summaries _ lang =>
      some ⟨strOf "S", [strOf "K"], strOf "CMP", build_citations summaries, lang⟩⟩

/-- A witness `AgentEnv`: three hits, the second failing extraction, the
others succeeding. -/
def wAgentEnv : AgentEnv :=
  ⟨fun _ => strOf "en",
    fun _ _ => [wHit 0, wHit 1, wHit 2],
    fun url => if url = (wHit 1).url then none else some ⟨url, strOf "T", strOf "body text"⟩,
    fun _ _ _ => some (strOf "a summary"),
    fun _ _ => strOf "OUT"⟩

/-- A witness `ChainEnv` whose three LLM helpers all succeed. -/
def wChainEnv : ChainEnv :=
  ⟨fun _ _ _ => some (strOf "MS"), fun _ _ _ => some [strOf "K1"], fun _ _ _ => some (strOf "CP")⟩

/-- An `AgentEnv` whose search always returns the empty list. -/
def emptySearchAgentEnv : AgentEnv :=
  ⟨fun _ => strOf "en", fun _ _ => [], fun _ => none, fun _ _ _ => none, fun _ _ => []⟩

/-- A `ServiceEnv` whose search always returns the empty list. -/
def emptySearchServiceEnv : ServiceEnv :=
  ⟨fun _ => strOf "en", fun _ _ => [], fun _ => none, fun _ _ _ => none, fun _ _ _ => none⟩

/-- The witness run's search hits. -/
def wResults : List SearchResult := [wHit 0, wHit 1, wHit 2]

/-- The summaries the witness agent run produces (two survivors: hits 0
and 2). -/
def wSummaries : List SourceSummary :=
  (agent_process_sources wAgentEnv none wResults (strOf "en")).2.2

/-- The report the witness reasoning chain produces from `wSummaries`. -/
def wReport : FinalReport :=
  ⟨strOf "MS", [strOf "K1"], strOf "CP", build_citations wSummaries, strOf "en"⟩

/-- Default `SourceSummary` used with `List.getD`. -/
def dSummary : SourceSummary := ⟨0, [], [], []⟩

/-- Default `Citation` used with `List.getD`. -/
def dCitation : Citation := ⟨0, [], []⟩

/-! ## Helper lemmas about the string model -/

theorem joinSep_cons_of_ne (sep : Str) (x : Str) (rest : List Str) (h : rest ≠ []) :
    joinSep sep (x :: rest) = x ++ sep ++ joinSep sep rest := by
  cases rest with
  | nil => exact absurd rfl h
  | cons y t => rfl

theorem joinSep_cons_head (sep : Str) (c : Char) (h : Str) (t : List Str) :
    joinSep sep ((c :: h) :: t) = c :: joinSep sep (h :: t) := by
  cases t with
  | nil => rfl
  | cons y t' => simp [joinSep]

theorem splitSeq2_ne_nil (s : Str) : splitSeq2 s ≠ [] := by
  induction s using splitSeq2.induct with
  | case1 => simp [splitSeq2]
  | case2 rest ih => simp [splitSeq2]
  | case3 c rest hne hnil ih => exact absurd hnil ih
  | case4 c rest hne h t heq ih =>
    rw [splitSeq2]
    · rw [heq]; simp
    · exact hne

theorem joinSep_splitSeq2 (s : Str) : joinSep nl2 (splitSeq2 s) = s := by
  induction s using splitSeq2.induct with
  | case1 => rfl
  | case2 rest ih =>
    rw [splitSeq2, joinSep_cons_of_ne _ _ _ (splitSeq2_ne_nil rest)]
    simp only [List.nil_append]
    rw [ih]
    rfl
  | case3 c rest hne hnil ih => exact absurd hnil (splitSeq2_ne_nil rest)
  | case4 c rest hne h t heq ih =>
    rw [splitSeq2]
    · rw [heq, joinSep_cons_head]
      rw [heq] at ih
      rw [ih]
    · exact hne

theorem infix_joinSep_of_mem (sep : Str) (x : Str) (l : List Str) (hx : x ∈ l) :
    x <:+: joinSep sep l := by
  induction l with
  | nil => simp at hx
  | cons y rest ih =>
    rcases List.mem_cons.mp hx with h | h
    · subst h
      cases rest with
      | nil => exact List.infix_rfl
      | cons z t =>
        rw [joinSep_cons_of_ne _ _ _ (by simp)]
        exact ((List.prefix_append x _).trans (List.prefix_append _ _)).isInfix
    · have hr : rest ≠ [] := by rintro rfl; simp at h
      rw [joinSep_cons_of_ne _ _ _ hr]
      exact (ih h).trans (List.suffix_append _ _).isInfix

theorem infix_splitSeq2_of_mem (x : Str) (s : Str) (hx : x ∈ splitSeq2 s) : x <:+: s := by
  have h := infix_joinSep_of_mem nl2 x (splitSeq2 s) hx
  rwa [joinSep_splitSeq2] at h

theorem pyStrip_eq_rdropWhile (s : Str) :
    pyStrip s = (s.dropWhile isPySpace).rdropWhile isPySpace := rfl

theorem pyStrip_infix_self (s : Str) : pyStrip s <:+: s := by
  rw [pyStrip_eq_rdropWhile]
  have hpre := List.rdropWhile_prefix isPySpace (s.dropWhile isPySpace)
  exact hpre.isInfix.trans (List.dropWhile_suffix _).isInfix

theorem infix_pyParagraphs_of_mem (x content : Str) (hx : x ∈ pyParagraphs content) :
    x <:+: content := by
  unfold pyParagraphs at hx
  obtain ⟨hmem, -⟩ := List.mem_filter.mp hx
  obtain ⟨q, hq, rfl⟩ := List.mem_map.mp hmem
  exact (pyStrip_infix_self q).trans (infix_splitSeq2_of_mem q content hq)

theorem joinSep_last_suffix (sep : Str) (l : List Str) (x : Str) :
    x <:+ joinSep sep (l ++ [x]) := by
  induction l with
  | nil => exact List.suffix_rfl
  | cons y l' ih =>
    rw [List.cons_append, joinSep_cons_of_ne _ _ _ (by simp)]
    exact ih.trans (List.suffix_append _ _)

theorem getLastD_congr {α : Type} (l : List α) (d d' : α) (h : l ≠ []) :
    l.getLastD d = l.getLastD d' := by
  rw [List.getLastD_eq_getLast?, List.getLastD_eq_getLast?, List.getLast?_eq_getLast l h]
  rfl

theorem getLastD_mem {α : Type} (l : List α) (d : α) (h : l ≠ []) : l.getLastD d ∈ l := by
  rw [List.getLastD_eq_getLast?, List.getLast?_eq_getLast l h]
  exact List.getLast_mem h

theorem headI_mem (l : List Str) (h : l ≠ []) : l.headI ∈ l := by
  cases l with
  | nil => exact absurd rfl h
  | cons a t => simp

theorem first_last_infix_joinSep (a lastv : Str) (mid : List Str) :
    a <:+: joinSep nl2 (([a] ++ mid) ++ [lastv]) ∧
    lastv <:+: joinSep nl2 (([a] ++ mid) ++ [lastv]) := by
  constructor
  · have hsh : ([a] ++ mid) ++ [lastv] = a :: (mid ++ [lastv]) := by simp
    rw [hsh, joinSep_cons_of_ne _ _ _ (by simp)]
    exact ((List.prefix_append a _).trans (List.prefix_append _ _)).isInfix
  · exact (joinSep_last_suffix nl2 ([a] ++ mid) lastv).isInfix

theorem cio_append_left (xs : List Str) (pre out : Str) (h : containsInOrder xs out) :
    containsInOrder xs (pre ++ out) := by
  cases xs with
  | nil => trivial
  | cons x xs' =>
    obtain ⟨p, s, heq, hrest⟩ := h
    exact ⟨pre ++ p, s, by rw [heq]; simp, hrest⟩

theorem cio_append_right (xs : List Str) (out post : Str) (h : containsInOrder xs out) :
    containsInOrder xs (out ++ post) := by
  induction xs generalizing out with
  | nil => trivial
  | cons x xs2 ih =>
    obtain ⟨p, s, heq, hrest⟩ := h
    exact ⟨p, s ++ post, by rw [heq]; simp, ih s hrest⟩

theorem cio_concat {xs ys : List Str} {a b : Str}
    (hx : containsInOrder xs a) (hy : containsInOrder ys b) :
    containsInOrder (xs ++ ys) (a ++ b) := by
  induction xs generalizing a with
  | nil => exact cio_append_left ys a b hy
  | cons x xs' ih =>
    obtain ⟨p, s, heq, hrest⟩ := hx
    exact ⟨p, s ++ b, by rw [heq]; simp, ih hrest⟩

theorem cio_sublist_joinSep (sep : Str) {blocks parts : List Str}
    (h : List.Sublist blocks parts) :
    containsInOrder blocks (joinSep sep parts) := by
  induction h with
  | slnil => trivial
  | cons a h ih =>
    rename_i l1 l2
    cases l2 with
    | nil =>
      have h0 : l1 = [] := List.sublist_nil.mp h
      subst h0
      trivial
    | cons y t =>
      rw [joinSep_cons_of_ne _ _ _ (by simp)]
      exact cio_append_left _ _ _ ih
  | cons₂ a h ih =>
    rename_i l1 l2
    cases l2 with
    | nil =>
      have h0 : l1 = [] := List.sublist_nil.mp h
      subst h0
      exact ⟨[], [], by simp [joinSep], trivial⟩
    | cons y t =>
      rw [joinSep_cons_of_ne _ _ _ (by simp)]
      exact ⟨[], sep ++ joinSep sep (y :: t), by simp, cio_append_left _ _ _ ih⟩

/-! ## Claim theorems -/

set_option maxRecDepth 20000 in
/-- C1.  The claimed length bound `len(truncate(content, max_chars)) ≤
max_chars` (for `max_chars ≥ 200` and content longer than the budget)
fails on both implementations, and not through the documented
single-paragraph exception: on a three-paragraph input whose first and
last paragraphs fit exactly (`min_required ≤ max_chars`) but leave no
room for any middle paragraph, both truncations emit
`first ++ "\n\n" ++ "[...]" ++ "\n\n" ++ last`, which exceeds
`max_chars` — 205 and 206 characters against a 200-character budget —
contradicting the code's own property tests
(`test_property_smart_truncation_respects_max_chars`). -/
theorem length_bound_code_bug :
    lengthCexBackend.length = 201 ∧
    (pyParagraphs lengthCexBackend).length = 3 ∧
    (smart_truncate lengthCexBackend 200).length = 205 ∧
    lengthCexSrc.length = 202 ∧
    (pyParagraphs lengthCexSrc).length = 3 ∧
    (traf_truncate lengthCexSrc 200).length = 206 := by
  decide

/-- C3.  At a run where the search returns 2 < 5 hits, every hit
survives extraction and summarization and report generation succeeds,
`ResearchService.research` does not complete normally: its final
statement `ResearchResult(report=report, language=language)` omits the
model's required `content` and `format` fields, so pydantic raises
`ValidationError` (neither `SearchFailedError` nor
`NoSourcesFoundError`).  The backend `ResearchAgent.research` completes
normally on the analogous run, as the claim — and the repository's own
`test_graceful_degradation`, which asserts `result.report is not None` —
expects. -/
theorem service_result_validation_code_bug :
    (service_research wServiceEnv none (strOf "topic") 5).2.2 =
      .error .validationError ∧
    (agent_research wAgentEnv wChainEnv none (strOf "topic") 5 (strOf "markdown")).2.2 =
      .ok (strOf "OUT") := by
  exact ⟨rfl, rfl⟩

set_option maxRecDepth 20000 in
/-- C4 counterexample.  On `"a"*100 + "\n\n" + "b"*100` with
`max_chars = 140` the remaining budget after the first paragraph,
separators and ellipsis marker is `140 - 100 - 15 = 25 ≥ 20`, so the
claim requires the output
`first ++ "\n\n[...]\n\n" ++ truncate(last, 25)`; both implementations
instead return the bare first paragraph. -/
theorem narrow_budget_claim_cex :
    140 - (List.replicate 100 'a' : Str).length - 15 = 25 ∧
    smart_truncate narrowCex 140 = List.replicate 100 'a' ∧
    traf_truncate narrowCex 140 = List.replicate 100 'a' ∧
    (List.replicate 100 'a' : Str) ≠
      List.replicate 100 'a' ++ nl2 ++ marker ++ nl2 ++
        simple_truncate (List.replicate 100 'b') 25 := by
  decide

set_option maxRecDepth 20000 in
/-- C5 counterexample.  On the spec's own example
(`"A"*50 + "\n\n" + "B"*50 + "\n\n" + "C"*50`, `max_chars = 60`) the
output of both truncations starts with `"A"*50` but does not contain
`"C"*50` at the end, contrary to the claim. -/
theorem example_scenario_claim_cex :
    (List.replicate 50 'A' <+: smart_truncate exampleScenarioContent 60) ∧
    ¬ (List.replicate 50 'C' <:+ smart_truncate exampleScenarioContent 60) ∧
    ¬ (List.replicate 50 'C' <:+ traf_truncate exampleScenarioContent 60) := by
  decide

set_option maxRecDepth 20000 in
/-- C5 amended.  On the example input both truncations return exactly
the word-boundary truncation of the first paragraph alone, i.e.
`"A"*50` (`min_required = 104 > 60` and there is no room for a
truncated conclusion), as the spec's own parenthetical remark states;
the output therefore contains `"A"*50` at the start and no `"C"`s. -/
theorem example_scenario_amended :
    smart_truncate exampleScenarioContent 60 = List.replicate 50 'A' ∧
    traf_truncate exampleScenarioContent 60 = List.replicate 50 'A' := by
  decide

set_option maxRecDepth 20000 in
/-- C8 counterexample.  A `FinalReport` with `language = "fa"` formatted
by `MarkdownJsonFormatter._to_markdown` contains no `Summary` header at
all: the section titles are localized (`"# خلاصه"` etc.), so the
claimed English headers are absent. -/
theorem markdown_headers_claim_cex :
    ¬ (strOf "Summary" <:+: mdjson_markdown faReport) := by
  decide

/-- C4 amended.  When the paragraph list has ≥ 2 entries, the content
exceeds the budget, and `min_required = len(first) + len(last) + 4 >
max_chars`, the backend `smart_truncate` emits
`first ++ "\n\n[...]\n\n" ++ simple_truncate(last, max_chars -
len(first) - 15)` exactly when `len(first) + 57 ≤ max_chars` (the code's
`intro_len + ellipsis_len + 50 ≤ max_chars` guard, under which the
remaining budget is ≥ 42, so the inner `remaining > 20` check always
passes), and otherwise emits `first` word-boundary-truncated to
`max_chars` — the branch is not taken whenever the remaining budget
merely reaches 20.  `TrafilaturaExtractor.truncate` never emits the
marker in its narrow branch (`min_required = len(first) + len(last) + 2
> max_chars`): it always returns `first` word-boundary-truncated. -/
theorem narrow_budget_branch_amended (content : Str) (maxChars : Nat)
    (h2 : 2 ≤ (pyParagraphs content).length)
    (hlen : maxChars < content.length)
    (hover : maxChars <
      (pyParagraphs content).headI.length + ((pyParagraphs content).getLastD []).length + 4) :
    (smart_truncate content maxChars =
      if (pyParagraphs content).headI.length + 57 ≤ maxChars then
        (pyParagraphs content).headI ++ nl2 ++ marker ++ nl2 ++
          simple_truncate ((pyParagraphs content).getLastD [])
            (maxChars - (pyParagraphs content).headI.length - 15)
      else simple_truncate (pyParagraphs content).headI maxChars)
    ∧ (maxChars <
        (pyParagraphs content).headI.length + ((pyParagraphs content).getLastD []).length + 2 →
        traf_truncate content maxChars =
          truncate_at_word_boundary (pyParagraphs content).headI maxChars) := by
  have hne : ¬ content.isEmpty := by
    cases content with
    | nil => simp at hlen
    | cons c t => simp
  have hgt : ¬ content.length ≤ maxChars := by omega
  constructor
  · rw [smart_truncate, if_neg (by simp_all), if_neg hgt]
    obtain ⟨a, t, hPeq⟩ : ∃ a t, pyParagraphs content = a :: t := by
      cases h : pyParagraphs content with
      | nil => rw [h] at h2; simp at h2
      | cons a t => exact ⟨a, t, rfl⟩
    obtain ⟨b, l, hteq⟩ : ∃ b l, t = b :: l := by
      cases ht : t with
      | nil => rw [ht] at hPeq; rw [hPeq] at h2; simp at h2
      | cons b l => exact ⟨b, l, rfl⟩
    subst hteq
    rw [hPeq] at hover ⊢
    rw [smart_truncate_core]
    have hlast : (a :: b :: l).getLastD [] = (b :: l).getLastD [] := by
      rw [List.getLastD_cons]
      exact getLastD_congr _ _ _ (by simp)
    rw [hlast] at hover
    simp only [List.headI_cons] at hover ⊢
    rw [hlast]
    rw [if_pos (by omega)]
    by_cases hc : a.length + 7 + 50 ≤ maxChars
    · rw [if_pos hc, if_pos (by omega : 20 < maxChars - a.length - 4 - 7 - 4),
        if_pos (by omega : a.length + 57 ≤ maxChars)]
      have hsub : maxChars - a.length - 4 - 7 - 4 = maxChars - a.length - 15 := by omega
      rw [hsub]
    · rw [if_neg hc, if_neg (by omega : ¬ a.length + 57 ≤ maxChars)]
  · intro hover2
    rw [traf_truncate, if_neg hgt]
    have hP1 : ¬ (pyParagraphs content).length ≤ 1 := by omega
    rw [if_neg hP1]
    rw [truncate_preserving_structure]
    rw [if_pos (by omega)]

set_option maxRecDepth 20000 in
/-- C4 amended, witness: the amended characterization applied to the
concrete narrow-budget input (`"a"*100 + "\n\n" + "b"*100`,
`max_chars = 140`). -/
theorem narrow_budget_branch_amended_witness :
    (2 ≤ (pyParagraphs narrowCex).length ∧ 140 < narrowCex.length ∧
      140 < (pyParagraphs narrowCex).headI.length +
        ((pyParagraphs narrowCex).getLastD []).length + 4) ∧
    ((smart_truncate narrowCex 140 =
      if (pyParagraphs narrowCex).headI.length + 57 ≤ 140 then
        (pyParagraphs narrowCex).headI ++ nl2 ++ marker ++ nl2 ++
          simple_truncate ((pyParagraphs narrowCex).getLastD [])
            (140 - (pyParagraphs narrowCex).headI.length - 15)
      else simple_truncate (pyParagraphs narrowCex).headI 140)
    ∧ (140 <
        (pyParagraphs narrowCex).headI.length + ((pyParagraphs narrowCex).getLastD []).length + 2 →
        traf_truncate narrowCex 140 =
          truncate_at_word_boundary (pyParagraphs narrowCex).headI 140)) :=
  ⟨⟨by decide, by decide, by decide⟩,
    narrow_budget_branch_amended narrowCex 140 (by decide) (by decide) (by decide)⟩

/-- C7.  Endpoint preservation: whenever the trimmed non-empty
paragraph list has at least 4 entries and the budget fits the first and
last paragraphs (`min_required = len(first) + len(last) + 4 ≤
max_chars`), both the first and the last paragraph appear verbatim as
substrings of the output of `ContentExtractor.smart_truncate` and of
`TrafilaturaExtractor.truncate`. -/
theorem endpoint_preservation (content : Str) (maxChars : Nat)
    (h4 : 4 ≤ (pyParagraphs content).length)
    (hfit : (pyParagraphs content).headI.length +
      ((pyParagraphs content).getLastD []).length + 4 ≤ maxChars) :
    ((pyParagraphs content).headI <:+: smart_truncate content maxChars ∧
     (pyParagraphs content).getLastD [] <:+: smart_truncate content maxChars) ∧
    ((pyParagraphs content).headI <:+: traf_truncate content maxChars ∧
     (pyParagraphs content).getLastD [] <:+: traf_truncate content maxChars) := by
  have hPne : pyParagraphs content ≠ [] := by
    intro h; rw [h] at h4; simp at h4
  have hfirstC : (pyParagraphs content).headI <:+: content :=
    infix_pyParagraphs_of_mem _ _ (headI_mem _ hPne)
  have hlastC : (pyParagraphs content).getLastD [] <:+: content :=
    infix_pyParagraphs_of_mem _ _ (getLastD_mem _ _ hPne)
  have hcne : ¬ content.isEmpty := by
    cases hc : content with
    | nil => rw [hc] at hPne; exact absurd rfl hPne
    | cons c t => simp
  by_cases hshort : content.length ≤ maxChars
  · constructor
    · rw [smart_truncate, if_neg (by simp_all), if_pos hshort]
      exact ⟨hfirstC, hlastC⟩
    · rw [traf_truncate, if_pos hshort]
      exact ⟨hfirstC, hlastC⟩
  · constructor
    · obtain ⟨a, t, hPeq⟩ : ∃ a t, pyParagraphs content = a :: t := by
        cases h : pyParagraphs content with
        | nil => exact absurd h hPne
        | cons a t => exact ⟨a, t, rfl⟩
      obtain ⟨b, l, hteq⟩ : ∃ b l, t = b :: l := by
        cases ht : t with
        | nil => rw [ht] at hPeq; rw [hPeq] at h4; simp at h4
        | cons b l => exact ⟨b, l, rfl⟩
      subst hteq
      rw [hPeq] at hfit ⊢
      rw [smart_truncate, if_neg (by simp_all), if_neg hshort, hPeq, smart_truncate_core]
      have hlast : (a :: b :: l).getLastD [] = (b :: l).getLastD [] := by
        rw [List.getLastD_cons]
        exact getLastD_congr _ _ _ (by simp)
      rw [hlast] at hfit
      simp only [List.headI_cons] at hfit ⊢
      rw [if_neg (by omega)]
      rw [hlast]
      exact first_last_infix_joinSep a ((b :: l).getLastD []) _
    · rw [traf_truncate, if_neg hshort]
      rw [if_neg (by omega : ¬ (pyParagraphs content).length ≤ 1)]
      rw [truncate_preserving_structure]
      rw [if_neg (by omega)]
      exact first_last_infix_joinSep ((pyParagraphs content).headI)
        ((pyParagraphs content).getLastD []) _

set_option maxRecDepth 20000 in
/-- C7 witness: endpoint preservation applied to a concrete
four-paragraph content with a 100-character budget. -/
theorem endpoint_preservation_witness :
    (4 ≤ (pyParagraphs fourParaContent).length ∧
      (pyParagraphs fourParaContent).headI.length +
        ((pyParagraphs fourParaContent).getLastD []).length + 4 ≤ 100) ∧
    (((pyParagraphs fourParaContent).headI <:+: smart_truncate fourParaContent 100 ∧
      (pyParagraphs fourParaContent).getLastD [] <:+: smart_truncate fourParaContent 100) ∧
     ((pyParagraphs fourParaContent).headI <:+: traf_truncate fourParaContent 100 ∧
      (pyParagraphs fourParaContent).getLastD [] <:+: traf_truncate fourParaContent 100)) :=
  ⟨⟨by decide, by decide⟩, endpoint_preservation fourParaContent 100 (by decide) (by decide)⟩

set_option maxRecDepth 4000 in
/-- C8 amended.  For every `FinalReport`, the backend
`OutputFormatter._format_markdown` output contains, in order, the
`# Summary` header, the `# Key Points` header, one `- point` bullet per
key point, the `# Comparison` header, the `# Citations` header and one
`[N] Title - URL` line per citation; the `src`-tree
`MarkdownJsonFormatter._to_markdown` output has the same structure with
the section headers localized through `SECTION_TITLES` for the report's
language (English exactly when the language maps to the English
titles). -/
theorem markdown_structure_amended (report : FinalReport) :
    containsInOrder (backendMdBlocks report) (format_markdown report) ∧
    containsInOrder (srcMdBlocks report) (mdjson_markdown report) := by
  constructor
  · unfold format_markdown backendMdBlocks
    apply cio_sublist_joinSep
    simp only [List.cons_append, List.nil_append, List.append_assoc]
    refine List.Sublist.cons₂ _ ?_
    refine List.Sublist.cons _ ?_
    refine List.Sublist.cons _ ?_
    refine List.Sublist.cons₂ _ ?_
    refine List.Sublist.append_left ?_ _
    refine List.Sublist.cons _ ?_
    refine List.Sublist.cons₂ _ ?_
    refine List.Sublist.cons _ ?_
    refine List.Sublist.cons _ ?_
    exact List.Sublist.cons₂ _ (List.Sublist.refl _)
  · have h1 : containsInOrder [strOf "# " ++ (get_titles report.language).summary]
        (strOf "# " ++ (get_titles report.language).summary ++ strOf "\n\n"
          ++ report.summary ++ strOf "\n") :=
      ⟨[], strOf "\n\n" ++ (report.summary ++ strOf "\n"), by simp [List.append_assoc], trivial⟩
    have h2 : containsInOrder
        ((strOf "# " ++ (get_titles report.language).key_points)
          :: report.key_points.map (fun p => strOf "- " ++ p))
        (strOf "# " ++ (get_titles report.language).key_points ++ strOf "\n\n"
          ++ joinSep (strOf "\n") (report.key_points.map (fun p => strOf "- " ++ p))
          ++ strOf "\n") := by
      refine ⟨[], strOf "\n\n"
        ++ joinSep (strOf "\n") (report.key_points.map (fun p => strOf "- " ++ p))
        ++ strOf "\n", by simp [List.append_assoc], ?_⟩
      exact cio_append_right _ _ _ (cio_append_left _ _ _
        (cio_sublist_joinSep _ (List.Sublist.refl _)))
    have h3 : containsInOrder [strOf "# " ++ (get_titles report.language).comparison]
        (strOf "# " ++ (get_titles report.language).comparison ++ strOf "\n\n"
          ++ report.comparison ++ strOf "\n") :=
      ⟨[], strOf "\n\n" ++ (report.comparison ++ strOf "\n"), by simp [List.append_assoc], trivial⟩
    have h4 : containsInOrder
        ((strOf "# " ++ (get_titles report.language).citations)
          :: report.citations.map citationLine)
        (strOf "# " ++ (get_titles report.language).citations ++ strOf "\n\n"
          ++ joinSep nl2 (report.citations.map citationLine)) := by
      refine ⟨[], strOf "\n\n" ++ joinSep nl2 (report.citations.map citationLine),
        by simp [List.append_assoc], ?_⟩
      exact cio_append_left _ _ _ (cio_sublist_joinSep _ (List.Sublist.refl _))
    have hcomb := cio_concat h1 (cio_append_left _ (strOf "\n") _
      (cio_concat h2 (cio_append_left _ (strOf "\n") _
        (cio_concat h3 (cio_append_left _ (strOf "\n") _ h4)))))
    have hout : mdjson_markdown report =
        (strOf "# " ++ (get_titles report.language).summary ++ strOf "\n\n"
          ++ report.summary ++ strOf "\n")
        ++ (strOf "\n" ++ ((strOf "# " ++ (get_titles report.language).key_points ++ strOf "\n\n"
          ++ joinSep (strOf "\n") (report.key_points.map (fun p => strOf "- " ++ p))
          ++ strOf "\n")
        ++ (strOf "\n" ++ ((strOf "# " ++ (get_titles report.language).comparison ++ strOf "\n\n"
          ++ report.comparison ++ strOf "\n")
        ++ (strOf "\n" ++ (strOf "# " ++ (get_titles report.language).citations ++ strOf "\n\n"
          ++ joinSep nl2 (report.citations.map citationLine))))))) := by
      simp [mdjson_markdown, joinSep, List.append_assoc]
    rw [hout]
    have hblocks : srcMdBlocks report =
        [strOf "# " ++ (get_titles report.language).summary]
        ++ (((strOf "# " ++ (get_titles report.language).key_points)
            :: report.key_points.map (fun p => strOf "- " ++ p))
        ++ ([strOf "# " ++ (get_titles report.language).comparison]
        ++ ((strOf "# " ++ (get_titles report.language).citations)
            :: report.citations.map citationLine))) := by
      simp [srcMdBlocks]
    rw [hblocks]
    exact hcomb

/-! ## Pipeline lemmas and claims -/

theorem agentProcessAux_numbering (env : AgentEnv) (cb : Callback) (lang : Str) (total : Nat) :
    ∀ (rest : List SearchResult) (i n k : Nat),
      k < (agentProcessAux env cb lang total rest i n).2.2.length →
      ((agentProcessAux env cb lang total rest i n).2.2.getD k dSummary).source_number
        = n + k + 1 := by
  intro rest
  induction rest with
  | nil => intro i n k hk; simp [agentProcessAux] at hk
  | cons r rest ih =>
    intro i n k hk
    rw [agentProcessAux] at hk ⊢
    cases hext : env.extract r.url with
    | none =>
      simp only [hext] at hk ⊢
      exact ih _ _ _ hk
    | some ext =>
      cases hsum : env.summarize (smart_truncate ext.content 8000) ext.title lang with
      | none =>
        simp only [hext, hsum] at hk ⊢
        exact ih _ _ _ hk
      | some s =>
        simp only [hext, hsum] at hk ⊢
        cases k with
        | zero => simp
        | succ k' =>
          simp only [List.getD_cons_succ]
          have h2 := ih (i + 1) (n + 1) k' (by simpa using hk)
          rw [h2]
          omega

theorem agentProcessAux_trace (env : AgentEnv) (cb : Callback) (lang : Str) (total : Nat) :
    ∀ (rest : List SearchResult) (i n : Nat),
      (agentProcessAux env cb lang total rest i n).1 =
        ((List.enumFrom i rest).map (fun p =>
          fetchingEvent p.1 total ::
            (if (env.extract p.2.url).isSome then [summarizingEvent p.1 total]
             else []))).flatten := by
  intro rest
  induction rest with
  | nil => intro i n; simp [agentProcessAux]
  | cons r rest ih =>
    intro i n
    rw [agentProcessAux, List.enumFrom_cons]
    cases hext : env.extract r.url with
    | none => simp [hext, ih]
    | some ext =>
      cases hsum : env.summarize (smart_truncate ext.content 8000) ext.title lang with
      | none => simp [hext, hsum, ih]
      | some s => simp [hext, hsum, ih]

theorem agentProcessAux_cb (env : AgentEnv) (lang : Str) (total : Nat) (cb₁ cb₂ : Callback) :
    ∀ (rest : List SearchResult) (i n : Nat),
      (agentProcessAux env cb₁ lang total rest i n).1 =
        (agentProcessAux env cb₂ lang total rest i n).1 ∧
      (agentProcessAux env cb₁ lang total rest i n).2.2 =
        (agentProcessAux env cb₂ lang total rest i n).2.2 := by
  intro rest
  induction rest with
  | nil => intro i n; exact ⟨rfl, rfl⟩
  | cons r rest ih =>
    intro i n
    rw [agentProcessAux, agentProcessAux]
    cases hext : env.extract r.url with
    | none =>
      simp only [hext]
      exact ⟨by rw [(ih (i + 1) n).1], (ih (i + 1) n).2⟩
    | some ext =>
      cases hsum : env.summarize (smart_truncate ext.content 8000) ext.title lang with
      | none =>
        simp only [hext, hsum]
        exact ⟨by rw [(ih (i + 1) n).1], (ih (i + 1) n).2⟩
      | some s =>
        simp only [hext, hsum]
        exact ⟨by rw [(ih (i + 1) (n + 1)).1], by rw [(ih (i + 1) (n + 1)).2]⟩

theorem serviceProcessAux_trace (env : ServiceEnv) (cb : Callback) (lang : Str) (total : Nat) :
    ∀ (rest : List SearchResult) (i n : Nat),
      (serviceProcessAux env cb lang total rest i n).1 =
        ((List.enumFrom i rest).map (fun p =>
          fetchingEvent p.1 total ::
            (if (env.extract p.2.url).isSome then [summarizingEvent p.1 total]
             else []))).flatten := by
  intro rest
  induction rest with
  | nil => intro i n; simp [serviceProcessAux]
  | cons r rest ih =>
    intro i n
    rw [serviceProcessAux, List.enumFrom_cons]
    cases hext : env.extract r.url with
    | none => simp [hext, ih]
    | some ext =>
      cases hsum : env.summarize (traf_truncate ext.content 8000) ext.title lang with
      | none => simp [hext, hsum, ih]
      | some s => simp [hext, hsum, ih]

theorem serviceProcessAux_cb (env : ServiceEnv) (lang : Str) (total : Nat) (cb₁ cb₂ : Callback) :
    ∀ (rest : List SearchResult) (i n : Nat),
      (serviceProcessAux env cb₁ lang total rest i n).1 =
        (serviceProcessAux env cb₂ lang total rest i n).1 ∧
      (serviceProcessAux env cb₁ lang total rest i n).2.2 =
        (serviceProcessAux env cb₂ lang total rest i n).2.2 := by
  intro rest
  induction rest with
  | nil => intro i n; exact ⟨rfl, rfl⟩
  | cons r rest ih =>
    intro i n
    rw [serviceProcessAux, serviceProcessAux]
    cases hext : env.extract r.url with
    | none =>
      simp only [hext]
      exact ⟨by rw [(ih (i + 1) n).1], (ih (i + 1) n).2⟩
    | some ext =>
      cases hsum : env.summarize (traf_truncate ext.content 8000) ext.title lang with
      | none =>
        simp only [hext, hsum]
        exact ⟨by rw [(ih (i + 1) n).1], (ih (i + 1) n).2⟩
      | some s =>
        simp only [hext, hsum]
        exact ⟨by rw [(ih (i + 1) (n + 1)).1], by rw [(ih (i + 1) (n + 1)).2]⟩

theorem generate_report_citations (chain : ChainEnv) (s : List SourceSummary)
    (topic lang : Str) (r : FinalReport)
    (h : generate_report chain s topic lang = some r) :
    r.citations = build_citations s := by
  unfold generate_report at h
  by_cases he : s.isEmpty
  · simp [he] at h
  · rw [if_neg he] at h
    cases hm : chain.mainSummary (format_summaries s) topic (language_instruction lang) with
    | none => simp [hm] at h
    | some ms =>
      cases hk : chain.keyPoints (format_summaries s) topic (language_instruction lang) with
      | none => simp [hm, hk] at h
      | some kps =>
        cases hc : chain.comparison (format_summaries s) topic (language_instruction lang) with
        | none => simp [hm, hk, hc] at h
        | some cmp =>
          simp only [hm, hk, hc] at h
          by_cases hemp : ms.isEmpty || kps.isEmpty || cmp.isEmpty
          · simp [hemp] at h
          · rw [if_neg hemp] at h
            have h2 := Option.some.inj h
            rw [← h2]

theorem build_citations_getD (s : List SourceSummary) (k : Nat) (hk : k < s.length) :
    (build_citations s).getD k dCitation =
      ⟨(s.getD k dSummary).source_number, (s.getD k dSummary).title,
        (s.getD k dSummary).url⟩ := by
  induction s generalizing k with
  | nil => simp at hk
  | cons a t ih =>
    cases k with
    | zero => simp [build_citations]
    | succ k' =>
      simp only [build_citations, List.map_cons, List.getD_cons_succ]
      exact ih k' (by simpa using hk)

/-- C2.  Sequential numbering: in any run, the `k`-th summary surviving
`ResearchAgent._process_sources` carries `source_number = k + 1`
(numbering counts successes only, independently of the original search
index), and a `FinalReport` produced from those summaries by
`ReasoningChain.generate_report` has one citation per summary with
`citations[k].number = k + 1` and title and url copied 1:1 from the
corresponding summary. -/
theorem sequential_numbering_citations (env : AgentEnv) (chain : ChainEnv) (cb : Callback)
    (results : List SearchResult) (topic lang : Str) (r : FinalReport) (k : Nat)
    (hk : k < ((agent_process_sources env cb results lang).2.2).length)
    (hr : generate_report chain ((agent_process_sources env cb results lang).2.2) topic lang
      = some r) :
    (((agent_process_sources env cb results lang).2.2).getD k dSummary).source_number = k + 1 ∧
    r.citations.length = ((agent_process_sources env cb results lang).2.2).length ∧
    (r.citations.getD k dCitation).number = k + 1 ∧
    (r.citations.getD k dCitation).title =
      (((agent_process_sources env cb results lang).2.2).getD k dSummary).title ∧
    (r.citations.getD k dCitation).url =
      (((agent_process_sources env cb results lang).2.2).getD k dSummary).url := by
  have hnum := agentProcessAux_numbering env cb lang results.length results 1 0 k hk
  have hnum' : (((agent_process_sources env cb results lang).2.2).getD k dSummary).source_number
      = k + 1 := by
    rw [agent_process_sources]
    rw [hnum]
    omega
  have hcit := generate_report_citations chain _ topic lang r hr
  refine ⟨hnum', ?_, ?_, ?_, ?_⟩
  · rw [hcit, build_citations]
    simp
  · rw [hcit, build_citations_getD _ _ hk]
    exact hnum'
  · rw [hcit, build_citations_getD _ _ hk]
  · rw [hcit, build_citations_getD _ _ hk]

set_option maxRecDepth 20000 in
/-- C2 witness: the numbering and citation-copy invariant applied to a
concrete run with three hits of which the second fails extraction; the
second survivor (k = 1) is numbered 2. -/
theorem sequential_numbering_citations_witness :
    (1 < ((agent_process_sources wAgentEnv none wResults (strOf "en")).2.2).length ∧
     generate_report wChainEnv ((agent_process_sources wAgentEnv none wResults (strOf "en")).2.2)
       (strOf "T") (strOf "en") = some wReport) ∧
    ((((agent_process_sources wAgentEnv none wResults (strOf "en")).2.2).getD 1
        dSummary).source_number = 1 + 1 ∧
     wReport.citations.length =
       ((agent_process_sources wAgentEnv none wResults (strOf "en")).2.2).length ∧
     (wReport.citations.getD 1 dCitation).number = 1 + 1 ∧
     (wReport.citations.getD 1 dCitation).title =
       (((agent_process_sources wAgentEnv none wResults (strOf "en")).2.2).getD 1
         dSummary).title ∧
     (wReport.citations.getD 1 dCitation).url =
       (((agent_process_sources wAgentEnv none wResults (strOf "en")).2.2).getD 1
         dSummary).url) :=
  ⟨⟨by decide, by decide⟩,
   sequential_numbering_citations wAgentEnv wChainEnv none wResults (strOf "T") (strOf "en")
     wReport 1 (by decide) (by decide)⟩

/-- C6.  Total search failure: when the search provider returns an
empty list, `ResearchAgent.research` raises its search-failure
`ResearchError` and `ResearchService.research` raises
`SearchFailedError`, and in both pipelines the full event trace is
exactly the single preceding `searching` event — no `found` and no
`fetching` event is emitted. -/
theorem total_search_failure (env : AgentEnv) (chain : ChainEnv) (senv : ServiceEnv)
    (cb cb' : Callback) (topic : Str) (numSources : Nat) (outputFormat : Str)
    (hA : env.search topic numSources = []) (hS : senv.search topic numSources = []) :
    agent_research env chain cb topic numSources outputFormat =
      ([searchingEvent], [send_progress cb searchingEvent],
        .error ⟨strOf "Unable to search. Please try again."⟩) ∧
    service_research senv cb' topic numSources =
      ([searchingEvent], [send_progress cb' searchingEvent], .error .searchFailed) := by
  constructor
  · simp [agent_research, hA]
  · simp [service_research, hS]

/-- C6 witness: the empty-search behaviour at concrete environments
whose search always returns the empty list. -/
theorem total_search_failure_witness :
    (emptySearchAgentEnv.search (strOf "T") 5 = [] ∧
     emptySearchServiceEnv.search (strOf "T") 5 = []) ∧
    (agent_research emptySearchAgentEnv wChainEnv none (strOf "T") 5 (strOf "markdown") =
      ([searchingEvent], [send_progress none searchingEvent],
        .error ⟨strOf "Unable to search. Please try again."⟩) ∧
     service_research emptySearchServiceEnv none (strOf "T") 5 =
      ([searchingEvent], [send_progress none searchingEvent], .error .searchFailed)) :=
  ⟨⟨rfl, rfl⟩,
   total_search_failure emptySearchAgentEnv wChainEnv emptySearchServiceEnv none none
     (strOf "T") 5 (strOf "markdown") rfl rfl⟩

/-- C10.  Event protocol of source processing, in both pipelines: the
trace is, hit by hit in original order, one `fetching` event carrying
`current = ` the 1-based index and `total = ` the number of hits,
followed by a `summarizing` event (same `current`/`total`) exactly when
extraction of that hit returned a document; a hit that fails extraction
produces no `summarizing` event. -/
theorem fetch_summarize_event_protocol (env : AgentEnv) (senv : ServiceEnv)
    (cb cb' : Callback) (results : List SearchResult) (lang lang' : Str) :
    (agent_process_sources env cb results lang).1 =
      ((List.enumFrom 1 results).map (fun p =>
        fetchingEvent p.1 results.length ::
          (if (env.extract p.2.url).isSome then [summarizingEvent p.1 results.length]
           else []))).flatten ∧
    (service_process_sources senv cb' results lang').1 =
      ((List.enumFrom 1 results).map (fun p =>
        fetchingEvent p.1 results.length ::
          (if (senv.extract p.2.url).isSome then [summarizingEvent p.1 results.length]
           else []))).flatten :=
  ⟨agentProcessAux_trace env cb lang results.length results 1 0,
   serviceProcessAux_trace senv cb' lang' results.length results 1 0⟩

/-- C9.  Callback non-interference: for any two progress callbacks —
including ones that raise on some or all events, and the absent
callback — both pipelines produce the identical event trace and the
identical outcome (result or typed error); a callback exception is
swallowed by `_send_progress` / `_emit` and never alters the run. -/
theorem progress_callback_noninterference (env : AgentEnv) (chain : ChainEnv)
    (senv : ServiceEnv) (topic : Str) (numSources : Nat) (outputFormat : Str)
    (cb₁ cb₂ : Callback) :
    ((agent_research env chain cb₁ topic numSources outputFormat).1 =
      (agent_research env chain cb₂ topic numSources outputFormat).1 ∧
     (agent_research env chain cb₁ topic numSources outputFormat).2.2 =
      (agent_research env chain cb₂ topic numSources outputFormat).2.2) ∧
    ((service_research senv cb₁ topic numSources).1 =
      (service_research senv cb₂ topic numSources).1 ∧
     (service_research senv cb₁ topic numSources).2.2 =
      (service_research senv cb₂ topic numSources).2.2) := by
  constructor
  · obtain ⟨htr, hsum⟩ := agentProcessAux_cb env (env.detect topic)
      ((env.search topic numSources).length) cb₁ cb₂ (env.search topic numSources) 1 0
    simp only [agent_research, agent_process_sources]
    by_cases hres : (env.search topic numSources).isEmpty
    · simp [hres]
    · simp only [hres, Bool.false_eq_true, if_false]
      rw [htr, hsum]
      by_cases hse : (agentProcessAux env cb₂ (env.detect topic)
          (env.search topic numSources).length (env.search topic numSources) 1 0).2.2.isEmpty
      · simp [hse]
      · simp only [hse, Bool.false_eq_true, if_false]
        cases hg : generate_report chain
            (agentProcessAux env cb₂ (env.detect topic)
              (env.search topic numSources).length (env.search topic numSources) 1 0).2.2
            topic (env.detect topic) with
        | none => simp [hg]
        | some r => simp [hg]
  · obtain ⟨htr, hsum⟩ := serviceProcessAux_cb senv (senv.detect topic)
      ((senv.search topic numSources).length) cb₁ cb₂ (senv.search topic numSources) 1 0
    simp only [service_research, service_process_sources]
    by_cases hres : (senv.search topic numSources).isEmpty
    · simp [hres]
    · simp only [hres, Bool.false_eq_true, if_false]
      rw [htr, hsum]
      by_cases hse : (serviceProcessAux senv cb₂ (senv.detect topic)
          (senv.search topic numSources).length (senv.search topic numSources) 1 0).2.2.isEmpty
      · simp [hse]
      · simp only [hse, Bool.false_eq_true, if_false]
        cases hg : senv.generate
            (serviceProcessAux senv cb₂ (senv.detect topic)
              (senv.search topic numSources).length (senv.search topic numSources) 1 0).2.2
            topic (senv.detect topic) with
        | none => simp [hg]
        | some r => simp [hg]

end Ebcom
